import Mathlib

/-!
A shallow embedding of the `RedashClient` core of `src/index.ts` (an MCP
bridge over the Redash REST API), together with theorems settling the
frozen claims about its specification.

The embedded fragments are:

* the dynamic JSON payloads the client receives (`JVal`, with JavaScript
  truthiness, property access, `String(...)` coercion and `JSON.stringify`);
* the outcome of a single HTTP call made through the axios client
  (`HttpOutcome`: success body, axios error with a response, axios error with
  no response, other axios error, non-axios `Error`, thrown non-`Error`);
* `pollQueryResults` (the job polling loop), `executeQuery` and
  `executeAdhocQuery` with their error wrapping;
* `updateQuery`'s partial request body construction;
* the constructor's header merging together with the `key=value` fallback of
  `parseExtraHeaders`;
* `archiveQuery` and `deleteVisualization`.

Time is modelled by the elapsed-milliseconds counter that the loop's only
clock reads advance through `setTimeout(interval)`; network calls are
instantaneous in this model, exactly as in the repository's own unit tests
(which use mocked transports).
-/

namespace RedashMCP

/-- A JSON value as delivered by the backend over axios.  JavaScript's
`undefined` (absent property) is modelled as `null`; both are falsy and
neither is produced by `JSON.parse`, so the claims cannot tell them apart. -/
inductive JVal where
  | null : JVal
  | bool (b : Bool) : JVal
  | num (n : Int) : JVal
  | str (s : String) : JVal
  | arr (elems : List JVal) : JVal
  | obj (fields : List (String × JVal)) : JVal

/-- JavaScript strict equality `v === n` against a number literal, as used by
the status checks `response.data.job.status === 3` / `=== 4`. -/
def JVal.eqNum : JVal → Int → Bool
  | .num m, n => m == n
  | _, _ => false

/-- JavaScript truthiness of a value: `null`/`undefined`, `false`, `0` and
`""` are falsy; every object and array is truthy. -/
def JVal.truthy : JVal → Bool
  | .null => false
  | .bool b => b
  | .num n => n != 0
  | .str s => s != ""
  | .arr _ => true
  | .obj _ => true

/-- Property access `v.k` / `v?.k`: field lookup on objects, `undefined`
(modelled as `null`) on anything else or when the key is missing. -/
def JVal.get : JVal → String → JVal
  | .obj fields, k =>
      match fields.lookup k with
      | some v => v
      | none => .null
  | _, _ => .null

/-- JavaScript `String(v)` as used by template-literal interpolation:
`null` prints "null", numbers in decimal, strings verbatim, arrays join
their elements with commas, plain objects print "[object Object]". -/
def JVal.jsString : JVal → String
  | .null => "null"
  | .bool b => if b then "true" else "false"
  | .num n => toString n
  | .str s => s
  | .arr elems => String.intercalate "," (elems.attach.map (fun e => JVal.jsString e.1))
  | .obj _ => "[object Object]"
decreasing_by
  have := List.sizeOf_lt_of_mem e.2
  simp_wf
  omega

/-- Escaping of `"` and `\` inside a JSON-serialized string literal. -/
def jsonEscape (s : String) : String :=
  s.data.foldl
    (fun acc c =>
      acc ++ (if c = '\"' then "\\\"" else if c = '\\' then "\\\\" else String.singleton c))
    ""

/-- Model of `JSON.stringify(v)` (used as the last-resort error message for an
unstructured backend error body). -/
def JVal.stringify : JVal → String
  | .null => "null"
  | .bool b => if b then "true" else "false"
  | .num n => toString n
  | .str s => "\"" ++ jsonEscape s ++ "\""
  | .arr elems => "[" ++ String.intercalate "," (elems.attach.map (fun e => JVal.stringify e.1)) ++ "]"
  | .obj fields =>
      "\x7b" ++
        String.intercalate ","
          (fields.attach.map (fun f => "\"" ++ jsonEscape f.1.1 ++ "\":" ++ JVal.stringify f.1.2)) ++
      "\x7d"
decreasing_by
  · have := List.sizeOf_lt_of_mem e.2
    simp_wf
    omega
  · have h1 := List.sizeOf_lt_of_mem f.2
    have h2 : sizeOf f.1.2 < sizeOf f.1 := by
      obtain ⟨⟨k, v⟩, hf⟩ := f
      simp
    simp_wf
    omega

/-- The outcome of one HTTP call performed through the axios client, as the
surrounding `try`/`catch` blocks discriminate it:

* `ok body` — the promise resolved; `body` is `response.data`;
* `axiosHttp status data message` — `axios.isAxiosError(error)` and
  `error.response` is set (remote answered with an error status); `data` is
  `error.response.data` and `message` is `error.message`;
* `axiosNoResponse message` — axios error with `error.request` set but no
  `error.response` (nothing was received);
* `axiosPlain message` — axios error with neither `response` nor `request`;
* `errorThrown message` — a thrown non-axios `Error` instance;
* `nonErrorThrown display` — a thrown value that is not an `Error`;
  `display` is its `String(error)` rendering. -/
inductive HttpOutcome where
  | ok (body : JVal) : HttpOutcome
  | axiosHttp (status : Int) (data : JVal) (message : String) : HttpOutcome
  | axiosNoResponse (message : String) : HttpOutcome
  | axiosPlain (message : String) : HttpOutcome
  | errorThrown (message : String) : HttpOutcome
  | nonErrorThrown (display : String) : HttpOutcome

/-- Model of `error instanceof Error` together with `error.message`: every axios error
and every plain `Error` has a message; a thrown non-`Error` has none. -/
def HttpOutcome.errorMessage : HttpOutcome → Option String
  | .ok _ => none
  | .axiosHttp _ _ m => some m
  | .axiosNoResponse m => some m
  | .axiosPlain m => some m
  | .errorThrown m => some m
  | .nonErrorThrown _ => none

/-- Model of `error instanceof Error ? error.message : String(error)`. -/
def HttpOutcome.messageOrString : HttpOutcome → String
  | .ok _ => ""
  | .axiosHttp _ _ m => m
  | .axiosNoResponse m => m
  | .axiosPlain m => m
  | .errorThrown m => m
  | .nonErrorThrown d => d

/-- Whether the HTTP call succeeded. -/
def HttpOutcome.isOk : HttpOutcome → Bool
  | .ok _ => true
  | _ => false

/-- Model of `errorData?.message || errorData?.error || JSON.stringify(errorData)`,
interpolated into the failure template. -/
def extractErrMsg (data : JVal) : String :=
  if (data.get "message").truthy then (data.get "message").jsString
  else if (data.get "error").truthy then (data.get "error").jsString
  else data.stringify

/-- JavaScript `s.startsWith(p)`. -/
def jsStartsWith (s p : String) : Bool :=
  p.data.isPrefixOf s.data

/-- The `catch` block of `pollQueryResults`: an `Error` whose message already
starts with `"Query execution failed:"` (the loop's own status-4 error) is
re-thrown unchanged; otherwise the error is classified as remote-error-status,
no-response, or generic, and wrapped in a poll-failure message. -/
def pollCatch (jobId : String) (e : HttpOutcome) : String :=
  if (match e.errorMessage with
      | some m => jsStartsWith m "Query execution failed:"
      | none => false) then
    e.errorMessage.getD ""
  else
    match e with
    | .axiosHttp status data _ =>
        "Failed to poll for query results (job " ++ jobId ++ "): Redash API error (" ++
          toString status ++ "): " ++ extractErrMsg data
    | .axiosNoResponse m =>
        "Failed to poll for query results (job " ++ jobId ++ "): No response received from Redash API: " ++ m
    | .axiosPlain m =>
        "Failed to poll for query results (job " ++ jobId ++ "): " ++ m
    | .errorThrown m =>
        "Failed to poll for query results (job " ++ jobId ++ "): " ++ m
    | .nonErrorThrown d =>
        "Failed to poll for query results (job " ++ jobId ++ "): " ++ d
    | .ok _ => ""

/-- The message `Query execution timed out after ...ms` — note that the job id is
not part of this message. -/
def timeoutMessage (timeout : Nat) : String :=
  "Query execution timed out after " ++ toString timeout ++ "ms"

/-- Transport environment of one `pollQueryResults` run: `poll i` is the
outcome of the i-th `GET /api/jobs/...`, and `fetch v` the outcome of
`GET /api/query_results/...` for a job carrying `query_result_id` value
`v`. -/
structure PollEnv where
  poll : Nat → HttpOutcome
  fetch : JVal → HttpOutcome

/-- A poll response that keeps the loop in the Pending state: the HTTP call
succeeded and the job status is strictly-equal to neither 3 nor 4. -/
def pendingOk (o : HttpOutcome) : Bool :=
  match o with
  | .ok body =>
      !((body.get "job").get "status").eqNum 3 && !((body.get "job").get "status").eqNum 4
  | _ => false

/-- Terminal value of a poll run (the returned `RedashQueryResult`, or the
message of the thrown `Error`), plus how many requests the run issued. -/
inductive PollResult where
  | ok (body : JVal) : PollResult
  | err (message : String) : PollResult

/-- Request counts of one run: `polls` counts `GET /api/jobs/{jobId}` calls,
`fetches` counts `GET /api/query_results/{id}` calls. -/
structure PollStats where
  polls : Nat
  fetches : Nat
deriving DecidableEq

/-- The `while (Date.now() - startTime < timeout)` loop of
`pollQueryResults`, with the clock advanced only by the
`setTimeout(resolve, interval)` sleep of the Pending branch (network calls
are instantaneous, as in the repository's mocked unit tests).  `fuel` bounds
the number of remaining iterations; it is spent one unit per iteration, and
`pollQueryResults` supplies `timeout + 1` units, which is never exhausted
when `interval ≥ 1` (each iteration advances `elapsed` by `interval`, so at
most `⌈timeout / interval⌉ ≤ timeout` iterations run); on exhaustion the
loop's only remaining exit, the timeout error, is returned. -/
def pollGo (jobId : String) (timeout interval : Nat) (env : PollEnv) :
    Nat → Nat → Nat → PollResult × PollStats
  | 0, _, polls => (.err (timeoutMessage timeout), ⟨polls, 0⟩)
  | fuel + 1, elapsed, polls =>
    if elapsed < timeout then
      match env.poll polls with
      | .ok body =>
        if ((body.get "job").get "status").eqNum 3 then
          -- Completed: with a truthy query_result_id (ad hoc execution) a
          -- second GET fetches the persisted result; otherwise the job's
          -- inline result is returned directly.
          if ((body.get "job").get "query_result_id").truthy then
            match env.fetch ((body.get "job").get "query_result_id") with
            | .ok rbody => (.ok rbody, ⟨polls + 1, 1⟩)
            | e => (.err (pollCatch jobId e), ⟨polls + 1, 1⟩)
          else
            (.ok ((body.get "job").get "result"), ⟨polls + 1, 0⟩)
        else if ((body.get "job").get "status").eqNum 4 then
          -- Failed: `throw new Error(...)` inside the try; the catch sees the
          -- "Query execution failed:" message and re-throws it unchanged.
          (.err (pollCatch jobId (.errorThrown ("Query execution failed: " ++
              (if ((body.get "job").get "error").truthy
               then ((body.get "job").get "error").jsString
               else "Unknown error")))),
           ⟨polls + 1, 0⟩)
        else
          pollGo jobId timeout interval env fuel (elapsed + interval) (polls + 1)
      | e => (.err (pollCatch jobId e), ⟨polls + 1, 0⟩)
    else
      (.err (timeoutMessage timeout), ⟨polls, 0⟩)

/-- Model of `RedashClient.pollQueryResults(jobId, timeout = 60000, interval = 1000)`. -/
def pollQueryResults (jobId : String) (timeout interval : Nat) (env : PollEnv) :
    PollResult × PollStats :=
  pollGo jobId timeout interval env (timeout + 1) 0 0

/-- The `catch` block of `executeQuery`: every failure — axios error on the
initial POST or an `Error` propagated out of the polling loop — is re-thrown
under the `Failed to execute query ${queryId}: ` prefix (each throw site in
the source spells the full template; the shared prefix is factored out
here). -/
def execCatch (queryId : Int) (e : HttpOutcome) : String :=
  "Failed to execute query " ++ toString queryId ++ ": " ++
    match e with
    | .axiosHttp status data _ =>
        "Redash API error (" ++ toString status ++ "): " ++ extractErrMsg data
    | .axiosNoResponse m => "No response received from Redash API: " ++ m
    | .axiosPlain m => m
    | .errorThrown m => m
    | .nonErrorThrown d => d
    | .ok _ => ""

/-- Model of `RedashClient.executeQuery(queryId, parameters?)`: POST the execution
request (`post` is the outcome of `POST /api/queries/{queryId}/results`); a
truthy `job` in the body enters `pollQueryResults` with that job's id and the
default timeout/interval, otherwise the body itself is the result.  Errors
out of the poll loop are plain `Error`s, so the catch wraps their message
through its non-axios branch. -/
def executeQuery (queryId : Int) (post : HttpOutcome) (env : PollEnv) :
    PollResult × PollStats :=
  match post with
  | .ok body =>
    if (body.get "job").truthy then
      match pollQueryResults ((body.get "job").get "id").jsString 60000 1000 env with
      | (.ok v, s) => (.ok v, s)
      | (.err m, s) => (.err (execCatch queryId (.errorThrown m)), s)
    else
      (.ok body, ⟨0, 0⟩)
  | e => (.err (execCatch queryId e), ⟨0, 0⟩)

/-- Model of `RedashClient.executeAdhocQuery(query, dataSourceId)`: POST to
`/api/query_results`; a truthy `job` in the body enters the same polling
loop, otherwise the body is returned directly.  The catch wraps any failure
as `Failed to execute adhoc query: ${message}`. -/
def executeAdhocQuery (post : HttpOutcome) (env : PollEnv) :
    PollResult × PollStats :=
  match post with
  | .ok body =>
    if (body.get "job").truthy then
      match pollQueryResults ((body.get "job").get "id").jsString 60000 1000 env with
      | (.ok v, s) => (.ok v, s)
      | (.err m, s) => (.err ("Failed to execute adhoc query: " ++ m), s)
    else
      (.ok body, ⟨0, 0⟩)
  | e => (.err ("Failed to execute adhoc query: " ++ e.messageOrString), ⟨0, 0⟩)

/-- The `UpdateQueryRequest` interface: every field optional, `none` standing
for a TypeScript `undefined` (absent) field.  `options` and `schedule` are
opaque `any` payloads; `schedule` may be explicitly `some JVal.null`. -/
structure UpdateQueryRequest where
  name : Option String := none
  data_source_id : Option Int := none
  query : Option String := none
  description : Option String := none
  options : Option JVal := none
  schedule : Option JVal := none
  tags : Option (List String) := none
  is_archived : Option Bool := none
  is_draft : Option Bool := none

/-- One conditional `if (x !== undefined) requestData.k = x;` assignment:
the singleton entry when the field is provided, nothing otherwise. -/
def optEntry (k : String) (v : Option JVal) : List (String × JVal) :=
  match v with
  | some j => [(k, j)]
  | none => []

/-- The `requestData` object built by `RedashClient.updateQuery`: each of the
nine fields is added exactly when it is not `undefined`, in source order. -/
def updateQueryRequestData (q : UpdateQueryRequest) : List (String × JVal) :=
  optEntry "name" (q.name.map JVal.str) ++
  optEntry "data_source_id" (q.data_source_id.map JVal.num) ++
  optEntry "query" (q.query.map JVal.str) ++
  optEntry "description" (q.description.map JVal.str) ++
  optEntry "options" q.options ++
  optEntry "schedule" q.schedule ++
  optEntry "tags" (q.tags.map (fun ts => JVal.arr (ts.map JVal.str))) ++
  optEntry "is_archived" (q.is_archived.map JVal.bool) ++
  optEntry "is_draft" (q.is_draft.map JVal.bool)

/-- String-keyed record with JavaScript object semantics: insertion order,
unique keys, assignment overwrites in place. -/
def recGet (r : List (String × String)) (k : String) : Option String :=
  (r.find? (fun p => p.1 == k)).map Prod.snd

/-- JavaScript property assignment `r[k] = v`: overwrite in place when the
key exists, append otherwise. -/
def recSet (r : List (String × String)) (k v : String) : List (String × String) :=
  if r.any (fun p => p.1 == k) then
    r.map (fun p => if p.1 == k then (k, v) else p)
  else
    r ++ [(k, v)]

/-- JavaScript `delete r[k]`. -/
def recDel (r : List (String × String)) (k : String) : List (String × String) :=
  r.filter (fun p => p.1 != k)

/-- Object spread `\x7b...a, ...b\x7d`: the entries of `b` assigned over `a`
in order. -/
def recSpread (a b : List (String × String)) : List (String × String) :=
  b.foldl (fun acc p => recSet acc p.1 p.2) a

/-- Truthiness of `r[k]` for a string-valued record: present and nonempty. -/
def truthyEntry (o : Option String) : Bool :=
  match o with
  | some s => s != ""
  | none => false

/-- JavaScript `raw.split(/[;,]/)`: cut the character list at every `;` or
`,`, keeping empty parts. -/
def splitParts (raw : String) : List String :=
  (raw.data.foldr
    (fun c acc =>
      if c = ';' ∨ c = ',' then [] :: acc
      else
        match acc with
        | [] => [[c]]
        | g :: gs => (c :: g) :: gs)
    [[]]).map String.mk

/-- JavaScript `part.trim()`: strip leading and trailing whitespace. -/
def jsTrim (s : String) : String :=
  String.mk (((s.data.dropWhile Char.isWhitespace).reverse.dropWhile
    Char.isWhitespace).reverse)

/-- The `key=value;key2=value2` fallback branch of
`RedashClient.parseExtraHeaders` (taken whenever the raw string is not a
JSON object): split on `;`/`,`, skip parts without `=`, cut each part at its
first `=`, trim key and value, skip empty keys, later duplicates overwrite
earlier ones. -/
def parseExtraHeadersKV (raw : String) : List (String × String) :=
  (splitParts raw).foldl
    (fun headers part =>
      match part.data.findIdx? (fun c => c == '=') with
      | none => headers
      | some idx =>
          let key := jsTrim (String.mk (part.data.take idx))
          let value := jsTrim (String.mk (part.data.drop (idx + 1)))
          if key != "" then recSet headers key value else headers)
    []

/-- Header construction in the `RedashClient` constructor: the fixed
`Authorization: Key <apiKey>` and `Content-Type` defaults, the guarded
deletion of caller-supplied `Authorization`/`authorization` extra headers
(performed only when at least one of the two is truthy), then the object
spread of the extra headers over the defaults. -/
def constructHeaders (apiKey : String) (extraHeaders : List (String × String)) :
    List (String × String) :=
  let defaultHeaders := [("Authorization", "Key " ++ apiKey),
                         ("Content-Type", "application/json")]
  let extra :=
    if truthyEntry (recGet extraHeaders "Authorization") ||
       truthyEntry (recGet extraHeaders "authorization") then
      recDel (recDel extraHeaders "Authorization") "authorization"
    else
      extraHeaders
  recSpread defaultHeaders extra

/-- Outcome of the one `this.client.delete(...)` call of an archive/delete
operation: resolved, or rejected with an error whose
`error instanceof Error ? error.message : String(error)` rendering is
`message`. -/
inductive DeleteOutcome where
  | ok : DeleteOutcome
  | err (message : String) : DeleteOutcome

/-- Model of `RedashClient.archiveQuery(queryId)`: DELETE
`/api/queries/...`; `\x7bsuccess: true\x7d` on success, a wrapped error
naming the entity and id (and the cause) on failure. -/
def archiveQuery (queryId : Int) (out : DeleteOutcome) : Except String JVal :=
  match out with
  | .ok => .ok (JVal.obj [("success", JVal.bool true)])
  | .err m => .error ("Failed to archive query " ++ toString queryId ++ ": " ++ m)

/-- Model of `RedashClient.deleteVisualization(visualizationId)`: DELETE
`/api/visualizations/...`; the method's return type is `Promise<void>`, so a
successful call resolves with `undefined` (modelled as `JVal.null`), and a
failed one throws an error naming the entity and id (without the cause). -/
def deleteVisualization (visualizationId : Int) (out : DeleteOutcome) : Except String JVal :=
  match out with
  | .ok => .ok JVal.null
  | .err _ => .error ("Failed to delete visualization " ++ toString visualizationId)

/-! ### Helper lemmas about the polling loop -/

/-- One Pending iteration: a pending poll response inside the time window
advances the clock by `interval` and the attempt counter by one. -/
theorem pollGo_pending_succ (jobId : String) (timeout interval : Nat) (env : PollEnv)
    (fuel elapsed polls : Nat)
    (hp : pendingOk (env.poll polls) = true) (ht : elapsed < timeout) :
    pollGo jobId timeout interval env (fuel + 1) elapsed polls =
      pollGo jobId timeout interval env fuel (elapsed + interval) (polls + 1) := by
  cases he : env.poll polls with
  | ok body =>
      rw [he] at hp
      simp only [pendingOk, Bool.and_eq_true, Bool.not_eq_true'] at hp
      conv_lhs => rw [pollGo]
      rw [if_pos ht, he]
      simp [hp.1, hp.2]
  | axiosHttp s d m => rw [he] at hp; simp [pendingOk] at hp
  | axiosNoResponse m => rw [he] at hp; simp [pendingOk] at hp
  | axiosPlain m => rw [he] at hp; simp [pendingOk] at hp
  | errorThrown m => rw [he] at hp; simp [pendingOk] at hp
  | nonErrorThrown d => rw [he] at hp; simp [pendingOk] at hp

/-- Skipping a run of `k` Pending responses that all fall inside the time
window. -/
theorem pollGo_skip (jobId : String) (timeout interval : Nat) (env : PollEnv)
    (k : Nat) (hi : 0 < interval) :
    ∀ fuel elapsed polls, k ≤ fuel →
      (∀ i, i < k → pendingOk (env.poll (polls + i)) = true) →
      elapsed + k * interval < timeout →
      pollGo jobId timeout interval env fuel elapsed polls =
        pollGo jobId timeout interval env (fuel - k) (elapsed + k * interval) (polls + k) := by
  induction k with
  | zero => intro fuel elapsed polls _ _ _; simp
  | succ k ih =>
      intro fuel elapsed polls hfuel hp hw
      obtain ⟨f, rfl⟩ : ∃ f, fuel = f + 1 := ⟨fuel - 1, by omega⟩
      rw [Nat.succ_mul] at hw
      have ht : elapsed < timeout := by omega
      rw [pollGo_pending_succ jobId timeout interval env f elapsed polls
            (by simpa using hp 0 (Nat.succ_pos k)) ht]
      rw [ih f (elapsed + interval) (polls + 1) (by omega)
            (fun i hik => by
              have h' : polls + 1 + i = polls + (i + 1) := by omega
              rw [h']
              exact hp (i + 1) (by omega))
            (by omega)]
      have e1 : f + 1 - (k + 1) = f - k := by omega
      have e2 : elapsed + interval + k * interval = elapsed + (k + 1) * interval := by
        rw [Nat.succ_mul]; omega
      have e3 : polls + 1 + k = polls + (k + 1) := by omega
      rw [e1, e2, e3]

/-- Number of further poll attempts the loop performs from elapsed time `e`
when every response is Pending: the iteration count of the
`while (elapsed < timeout)` loop with step `interval`. -/
def remainingPolls (timeout e interval : Nat) : Nat :=
  (timeout - e + interval - 1) / interval

/-- Unfolding of `remainingPolls` across one Pending iteration. -/
theorem remainingPolls_succ (timeout e interval : Nat)
    (hi : 0 < interval) (he : e < timeout) :
    remainingPolls timeout e interval = 1 + remainingPolls timeout (e + interval) interval := by
  unfold remainingPolls
  rcases Nat.lt_or_ge (timeout - e) (interval + 1) with h | h
  · have h3 : timeout - (e + interval) = 0 := by omega
    rw [h3]
    have hL : (timeout - e + interval - 1) / interval = 1 :=
      Nat.div_eq_of_lt_le (by omega) (by omega)
    have hR : (0 + interval - 1) / interval = 0 := Nat.div_eq_of_lt (by omega)
    rw [hL, hR]
  · have h1 : timeout - e + interval - 1 = (timeout - e - 1) + interval := by omega
    have h2 : timeout - (e + interval) + interval - 1 = timeout - e - 1 := by omega
    rw [h1, h2, Nat.add_div_right _ hi]
    omega

/-- A run in which every poll response is Pending exhausts the time window
and returns the timeout error, after exactly `remainingPolls` further poll
attempts. -/
theorem pollGo_all_pending (jobId : String) (timeout interval : Nat) (env : PollEnv)
    (hi : 0 < interval) (hp : ∀ i, pendingOk (env.poll i) = true) :
    ∀ fuel elapsed polls, remainingPolls timeout elapsed interval ≤ fuel →
      pollGo jobId timeout interval env fuel elapsed polls =
        (.err (timeoutMessage timeout),
         ⟨polls + remainingPolls timeout elapsed interval, 0⟩) := by
  intro fuel
  induction fuel with
  | zero =>
      intro elapsed polls hle
      have h0 : remainingPolls timeout elapsed interval = 0 := by omega
      rw [h0]
      simp [pollGo]
  | succ f ihf =>
      intro elapsed polls hle
      by_cases ht : elapsed < timeout
      · rw [pollGo_pending_succ jobId timeout interval env f elapsed polls (hp polls) ht]
        rw [remainingPolls_succ timeout elapsed interval hi ht] at hle ⊢
        rw [ihf (elapsed + interval) (polls + 1) (by omega)]
        have e1 : polls + 1 + remainingPolls timeout (elapsed + interval) interval =
            polls + (1 + remainingPolls timeout (elapsed + interval) interval) := by omega
        rw [e1]
      · conv_lhs => rw [pollGo]
        rw [if_neg ht]
        have h0 : remainingPolls timeout elapsed interval = 0 := by
          unfold remainingPolls
          have he : timeout - elapsed = 0 := by omega
          rw [he]
          exact Nat.div_eq_of_lt (by omega)
        rw [h0]
        simp

/-- The fuel budget `timeout + 1` supplied by `pollQueryResults` always
covers the iteration count of the all-Pending run. -/
theorem remainingPolls_le (timeout interval : Nat) (hi : 0 < interval) :
    remainingPolls timeout 0 interval ≤ timeout + 1 := by
  unfold remainingPolls
  rcases Nat.eq_zero_or_pos timeout with h | h
  · subst h
    have h0 : (0 - 0 + interval - 1) / interval = 0 := Nat.div_eq_of_lt (by omega)
    omega
  · have hle : timeout - 0 + interval - 1 ≤ timeout * interval := by
      have h3 : (timeout - 1 + 1) * interval = (timeout - 1) * interval + interval :=
        Nat.succ_mul _ _
      have h4 : timeout - 1 + 1 = timeout := by omega
      rw [h4] at h3
      have h2 : (timeout - 1) * 1 ≤ (timeout - 1) * interval :=
        Nat.mul_le_mul (le_refl _) hi
      omega
    calc (timeout - 0 + interval - 1) / interval
        ≤ timeout * interval / interval := Nat.div_le_div_right hle
      _ = timeout := Nat.mul_div_cancel timeout hi
      _ ≤ timeout + 1 := Nat.le_succ timeout

/-- Any message of the form `Query execution failed: ...` starts with the
literal `Query execution failed:` that the catch block matches on. -/
theorem jsStartsWith_qef (s : String) :
    jsStartsWith ("Query execution failed: " ++ s) "Query execution failed:" = true := by
  unfold jsStartsWith
  rw [List.isPrefixOf_iff_prefix, String.data_append]
  exact List.IsPrefix.trans (by decide) (List.prefix_append _ _)

/-- The loop's own status-4 error is re-thrown by the catch block unchanged. -/
theorem pollCatch_qef (jobId s : String) :
    pollCatch jobId (.errorThrown ("Query execution failed: " ++ s)) =
      "Query execution failed: " ++ s := by
  simp [pollCatch, HttpOutcome.errorMessage, jsStartsWith_qef]

/-- After `k` Pending responses inside the time window, the loop stands at
attempt `k` with elapsed time `k * interval` and fuel to spare. -/
theorem pollQueryResults_arrives (jobId : String) (timeout interval : Nat) (env : PollEnv)
    (k : Nat) (hi : 0 < interval)
    (hpend : ∀ i, i < k → pendingOk (env.poll i) = true)
    (hk : k * interval < timeout) :
    pollQueryResults jobId timeout interval env =
      pollGo jobId timeout interval env (timeout + 1 - k) (k * interval) k := by
  have hkk : k ≤ k * interval := by
    calc k = k * 1 := (Nat.mul_one k).symm
    _ ≤ k * interval := Nat.mul_le_mul (le_refl k) hi
  unfold pollQueryResults
  rw [pollGo_skip jobId timeout interval env k hi (timeout + 1) 0 0 (by omega)
        (fun i hik => by rw [Nat.zero_add]; exact hpend i hik)
        (by omega)]
  simp only [Nat.zero_add]

/-! ### Claim theorems -/

/-- C1: for every poll response whose job status strictly equals 3 (arriving
after any run of Pending responses inside the time window),
`pollQueryResults` terminates successfully: with a truthy `query_result_id`
it performs exactly one further GET against the result-by-id endpoint and
returns that response body; otherwise it returns the job's inline `result`
field with no further GET.  ("Carries a query_result_id" is the source's
JavaScript truthiness test `if (response.data.job.query_result_id)`.) -/
theorem pollQueryResults_status3 (jobId : String) (timeout interval : Nat) (env : PollEnv)
    (k : Nat) (body : JVal)
    (hi : 0 < interval)
    (hpend : ∀ i, i < k → pendingOk (env.poll i) = true)
    (hk : k * interval < timeout)
    (hbody : env.poll k = .ok body)
    (h3 : ((body.get "job").get "status").eqNum 3 = true) :
    (∀ rbody, ((body.get "job").get "query_result_id").truthy = true →
        env.fetch ((body.get "job").get "query_result_id") = .ok rbody →
        pollQueryResults jobId timeout interval env = (.ok rbody, ⟨k + 1, 1⟩)) ∧
    (((body.get "job").get "query_result_id").truthy = false →
        pollQueryResults jobId timeout interval env =
          (.ok ((body.get "job").get "result"), ⟨k + 1, 0⟩)) := by
  have hkk : k ≤ k * interval := by
    calc k = k * 1 := (Nat.mul_one k).symm
    _ ≤ k * interval := Nat.mul_le_mul (le_refl k) hi
  obtain ⟨f, hf⟩ : ∃ f, timeout + 1 - k = f + 1 := ⟨timeout - k, by omega⟩
  have hred := pollQueryResults_arrives jobId timeout interval env k hi hpend hk
  rw [hf] at hred
  have hstep : pollGo jobId timeout interval env (f + 1) (k * interval) k =
      (if ((body.get "job").get "query_result_id").truthy then
         match env.fetch ((body.get "job").get "query_result_id") with
         | .ok rbody => (PollResult.ok rbody, ⟨k + 1, 1⟩)
         | e => (.err (pollCatch jobId e), ⟨k + 1, 1⟩)
       else
         (.ok ((body.get "job").get "result"), ⟨k + 1, 0⟩)) := by
    conv_lhs => rw [pollGo]
    rw [if_pos hk, hbody]
    simp only [h3, if_true]
  constructor
  · intro rbody hq hfetch
    rw [hred, hstep, if_pos hq, hfetch]
  · intro hq
    rw [hred, hstep, if_neg (by simp [hq])]

/-- A completed-with-query-result-id job body, as delivered for an ad hoc
execution. -/
def bodyC1 : JVal :=
  .obj [("job", .obj [("status", .num 3), ("query_result_id", .num 7),
                      ("result", .str "inline")])]

/-- An environment whose first poll already reports the `bodyC1` job and
whose result fetch returns a fixed payload. -/
def envC1 : PollEnv where
  poll := fun _ => .ok bodyC1
  fetch := fun _ => .ok (JVal.str "fetched")

/-- Witness for C1 at a concrete input: the run fetches the persisted result
after one poll and one result GET. -/
theorem pollQueryResults_status3_witness :
    pollQueryResults "job-1" 60000 1000 envC1 = (.ok (JVal.str "fetched"), ⟨1, 1⟩) :=
  (pollQueryResults_status3 "job-1" 60000 1000 envC1 0 bodyC1 (by decide)
      (fun i hik => absurd hik (Nat.not_lt_zero i)) (by decide) rfl (by decide)).1
    (JVal.str "fetched") (by decide) rfl

/-- A job status strictly equal to 4 is not strictly equal to 3. -/
theorem JVal.eqNum_three_of_four (v : JVal) (h : v.eqNum 4 = true) : v.eqNum 3 = false := by
  cases v <;> simp [JVal.eqNum] at h ⊢
  omega

/-- C3: for every poll response whose job status strictly equals 4 (arriving
after any run of Pending responses inside the time window), the run fails
terminally after that poll — `k + 1` poll attempts in total, no further
polling — with the message `Query execution failed: ` followed by the job's
truthy `error` field (or the literal `Unknown error` otherwise); the details
are contained in the message as its suffix. -/
theorem pollQueryResults_status4 (jobId : String) (timeout interval : Nat) (env : PollEnv)
    (k : Nat) (body : JVal)
    (hi : 0 < interval)
    (hpend : ∀ i, i < k → pendingOk (env.poll i) = true)
    (hk : k * interval < timeout)
    (hbody : env.poll k = .ok body)
    (h4 : ((body.get "job").get "status").eqNum 4 = true) :
    pollQueryResults jobId timeout interval env =
      (.err ("Query execution failed: " ++
         (if ((body.get "job").get "error").truthy then ((body.get "job").get "error").jsString
          else "Unknown error")),
       ⟨k + 1, 0⟩) ∧
    (((body.get "job").get "error").truthy = true →
       (((body.get "job").get "error").jsString).data <:+:
         ("Query execution failed: " ++ ((body.get "job").get "error").jsString).data) ∧
    (((body.get "job").get "error").truthy = false →
       ("Unknown error").data <:+: ("Query execution failed: " ++ "Unknown error").data) := by
  have hn3 := JVal.eqNum_three_of_four _ h4
  have hkk : k ≤ k * interval := by
    calc k = k * 1 := (Nat.mul_one k).symm
    _ ≤ k * interval := Nat.mul_le_mul (le_refl k) hi
  obtain ⟨f, hf⟩ : ∃ f, timeout + 1 - k = f + 1 := ⟨timeout - k, by omega⟩
  have hred := pollQueryResults_arrives jobId timeout interval env k hi hpend hk
  rw [hf] at hred
  refine ⟨?_, ?_, ?_⟩
  · rw [hred]
    conv_lhs => rw [pollGo]
    rw [if_pos hk, hbody]
    simp only [hn3, h4, Bool.false_eq_true, if_false, if_true]
    rw [pollCatch_qef]
  · intro _
    rw [String.data_append]
    exact (List.suffix_append _ _).isInfix
  · intro _
    rw [String.data_append]
    exact (List.suffix_append _ _).isInfix

/-- A failed job body carrying a backend error message. -/
def bodyC3 : JVal :=
  .obj [("job", .obj [("status", .num 4), ("error", .str "syntax error")])]

/-- An environment whose first poll reports the failed `bodyC3` job. -/
def envC3 : PollEnv where
  poll := fun _ => .ok bodyC3
  fetch := fun _ => .ok JVal.null

/-- Witness for C3 at a concrete input: one poll, then the terminal failure
carrying the backend's `syntax error` details. -/
theorem pollQueryResults_status4_witness :
    pollQueryResults "job-1" 60000 1000 envC3 =
      (.err ("Query execution failed: " ++ "syntax error"), ⟨1, 0⟩) := by
  have h := (pollQueryResults_status4 "job-1" 60000 1000 envC3 0 bodyC3 (by decide)
      (fun i hik => absurd hik (Nat.not_lt_zero i)) (by decide) rfl (by decide)).1
  rw [h]
  simp [bodyC3, JVal.get, List.lookup, JVal.truthy, JVal.jsString]

/-- C6: a poll attempt that throws (after any run of Pending responses
inside the time window) aborts the loop — exactly `k + 1` poll attempts are
made, none after the throwing one — and the error is converted by
`pollCatch`, which distinguishes a remote error status, no response
received, and the generic case, except that an `Error` whose message
already starts with `Query execution failed:` is re-thrown unchanged. -/
theorem pollQueryResults_poll_error (jobId : String) (timeout interval : Nat) (env : PollEnv)
    (k : Nat) (e : HttpOutcome)
    (hi : 0 < interval)
    (hpend : ∀ i, i < k → pendingOk (env.poll i) = true)
    (hk : k * interval < timeout)
    (hbody : env.poll k = e)
    (hne : e.isOk = false) :
    pollQueryResults jobId timeout interval env =
      (.err (pollCatch jobId e), ⟨k + 1, 0⟩) ∧
    (∀ m, e.errorMessage = some m →
       jsStartsWith m "Query execution failed:" = true → pollCatch jobId e = m) ∧
    (∀ st data m, e = .axiosHttp st data m →
       jsStartsWith m "Query execution failed:" = false →
       pollCatch jobId e = "Failed to poll for query results (job " ++ jobId ++
         "): Redash API error (" ++ toString st ++ "): " ++ extractErrMsg data) ∧
    (∀ m, e = .axiosNoResponse m →
       jsStartsWith m "Query execution failed:" = false →
       pollCatch jobId e = "Failed to poll for query results (job " ++ jobId ++
         "): No response received from Redash API: " ++ m) ∧
    (∀ m, e = .axiosPlain m →
       jsStartsWith m "Query execution failed:" = false →
       pollCatch jobId e = "Failed to poll for query results (job " ++ jobId ++ "): " ++ m) := by
  have hkk : k ≤ k * interval := by
    calc k = k * 1 := (Nat.mul_one k).symm
    _ ≤ k * interval := Nat.mul_le_mul (le_refl k) hi
  obtain ⟨f, hf⟩ : ∃ f, timeout + 1 - k = f + 1 := ⟨timeout - k, by omega⟩
  have hred := pollQueryResults_arrives jobId timeout interval env k hi hpend hk
  rw [hf] at hred
  refine ⟨?_, ?_, ?_, ?_, ?_⟩
  · rw [hred]
    conv_lhs => rw [pollGo]
    rw [if_pos hk, hbody]
    cases e with
    | ok body => simp [HttpOutcome.isOk] at hne
    | axiosHttp st d m => rfl
    | axiosNoResponse m => rfl
    | axiosPlain m => rfl
    | errorThrown m => rfl
    | nonErrorThrown d => rfl
  · intro m hm hpre
    cases e <;> simp [HttpOutcome.errorMessage] at hm <;>
      simp [pollCatch, HttpOutcome.errorMessage, hm, hpre]
  · rintro st d m rfl hpre
    simp [pollCatch, HttpOutcome.errorMessage, hpre]
  · rintro m rfl hpre
    simp [pollCatch, HttpOutcome.errorMessage, hpre]
  · rintro m rfl hpre
    simp [pollCatch, HttpOutcome.errorMessage, hpre]

/-- An environment whose first poll attempt throws an axios error that got
no response. -/
def envC6 : PollEnv where
  poll := fun _ => .axiosNoResponse "socket hang up"
  fetch := fun _ => .ok JVal.null

/-- Witness for C6 at a concrete input: the no-response transport error
aborts the run after a single poll attempt. -/
theorem pollQueryResults_poll_error_witness :
    pollQueryResults "job-9" 60000 1000 envC6 =
      (.err ("Failed to poll for query results (job " ++ "job-9" ++
         "): No response received from Redash API: " ++ "socket hang up"), ⟨1, 0⟩) := by
  have h := (pollQueryResults_poll_error "job-9" 60000 1000 envC6 0
      (.axiosNoResponse "socket hang up") (by decide)
      (fun i hik => absurd hik (Nat.not_lt_zero i)) (by decide) rfl rfl).1
  rw [h]
  have hc : pollCatch "job-9" (.axiosNoResponse "socket hang up") =
      "Failed to poll for query results (job " ++ "job-9" ++
        "): No response received from Redash API: " ++ "socket hang up" := by
    simp [pollCatch, HttpOutcome.errorMessage, jsStartsWith, List.isPrefixOf]
  rw [hc]

/-- An environment whose every poll reports a still-running job (status 1). -/
def envPending : PollEnv where
  poll := fun _ => .ok (JVal.obj [("job", JVal.obj [("status", JVal.num 1)])])
  fetch := fun _ => .ok JVal.null

/-- Every response of `envPending` is Pending. -/
theorem envPending_pending (i : Nat) : pendingOk (envPending.poll i) = true := by
  show pendingOk (.ok (JVal.obj [("job", JVal.obj [("status", JVal.num 1)])])) = true
  decide

/-- C4, counterexample: polling `job-1` with a 3 ms timeout over
never-terminal responses fails with the timeout error, but the message does
not carry the job id — refuting that the timeout error carries both the job
id and the duration. -/
theorem pollQueryResults_timeout_lacks_jobid :
    (pollQueryResults "job-1" 3 1 envPending).1 = .err (timeoutMessage 3) ∧
    ¬ ("job-1".data <:+: (timeoutMessage 3).data) := by
  constructor
  · have h := pollGo_all_pending "job-1" 3 1 envPending (by decide) envPending_pending
      4 0 0 (by decide)
    unfold pollQueryResults
    rw [h]
  · decide

/-- C4, amended: a poll run that never reaches status 3 or 4 fails with the
timeout error `Query execution timed out after <timeout>ms`, which carries
the configured timeout duration (the job id does not appear in it). -/
theorem pollQueryResults_timeout_message (jobId : String) (timeout interval : Nat)
    (env : PollEnv)
    (hi : 0 < interval) (hp : ∀ i, pendingOk (env.poll i) = true) :
    (pollQueryResults jobId timeout interval env).1 =
      .err ("Query execution timed out after " ++ toString timeout ++ "ms") ∧
    ((toString timeout).data <:+:
      ("Query execution timed out after " ++ toString timeout ++ "ms").data) := by
  constructor
  · unfold pollQueryResults
    rw [pollGo_all_pending jobId timeout interval env hi hp (timeout + 1) 0 0
          (remainingPolls_le timeout interval hi)]
    rfl
  · exact ⟨"Query execution timed out after ".data, "ms".data, by
      rw [String.data_append, String.data_append]⟩

/-- Witness for the amended C4 at a concrete input. -/
theorem pollQueryResults_timeout_message_witness :
    (pollQueryResults "j" 3 1 envPending).1 =
      .err ("Query execution timed out after " ++ toString 3 ++ "ms") :=
  (pollQueryResults_timeout_message "j" 3 1 envPending (by decide) envPending_pending).1

/-- C5: over responses that are never terminal, the loop performs exactly
`⌈timeout / interval⌉` poll attempts — about `timeout/interval`, and never
more than `timeout + 1` — then stops with the timeout error; it never loops
forever. -/
theorem pollQueryResults_bounded_attempts (jobId : String) (timeout interval : Nat)
    (env : PollEnv)
    (hi : 0 < interval) (hp : ∀ i, pendingOk (env.poll i) = true) :
    pollQueryResults jobId timeout interval env =
      (.err (timeoutMessage timeout), ⟨(timeout + interval - 1) / interval, 0⟩) ∧
    (timeout + interval - 1) / interval ≤ timeout + 1 := by
  have hrem : remainingPolls timeout 0 interval = (timeout + interval - 1) / interval := by
    unfold remainingPolls
    have h0 : timeout - 0 + interval - 1 = timeout + interval - 1 := by omega
    rw [h0]
  constructor
  · unfold pollQueryResults
    rw [pollGo_all_pending jobId timeout interval env hi hp (timeout + 1) 0 0
          (remainingPolls_le timeout interval hi)]
    rw [hrem]
    simp
  · have h := remainingPolls_le timeout interval hi
    rw [hrem] at h
    exact h

/-- Witness for C5 at a concrete input: timeout 5, interval 2, hence exactly
3 poll attempts. -/
theorem pollQueryResults_bounded_attempts_witness :
    pollQueryResults "j" 5 2 envPending = (.err (timeoutMessage 5), ⟨3, 0⟩) :=
  (pollQueryResults_bounded_attempts "j" 5 2 envPending (by decide) envPending_pending).1

/-- C2: when the execution response body has no truthy `job` object, both
`executeQuery` and `executeAdhocQuery` return the body unchanged with zero
calls to the job-status endpoint; with a truthy `job` they enter the polling
loop on that job's id (with the default 60000/1000 configuration),
propagating its outcome through their respective catch wrappers. -/
theorem executeQuery_sync_async (queryId : Int) (body : JVal) (env : PollEnv) :
    ((body.get "job").truthy = false →
       executeQuery queryId (.ok body) env = (.ok body, ⟨0, 0⟩) ∧
       executeAdhocQuery (.ok body) env = (.ok body, ⟨0, 0⟩)) ∧
    ((body.get "job").truthy = true →
       executeQuery queryId (.ok body) env =
         (match pollQueryResults ((body.get "job").get "id").jsString 60000 1000 env with
          | (.ok v, s) => (.ok v, s)
          | (.err m, s) => (.err (execCatch queryId (.errorThrown m)), s)) ∧
       executeAdhocQuery (.ok body) env =
         (match pollQueryResults ((body.get "job").get "id").jsString 60000 1000 env with
          | (.ok v, s) => (.ok v, s)
          | (.err m, s) => (.err ("Failed to execute adhoc query: " ++ m), s))) := by
  constructor
  · intro h
    constructor
    · show (if (body.get "job").truthy then _ else _) = _
      rw [h]
      rfl
    · show (if (body.get "job").truthy then _ else _) = _
      rw [h]
      rfl
  · intro h
    constructor
    · show (if (body.get "job").truthy then _ else _) = _
      rw [h]
      rfl
    · show (if (body.get "job").truthy then _ else _) = _
      rw [h]
      rfl

/-- A synchronous execution response: a bare result body with no `job`. -/
def bodySync : JVal :=
  .obj [("data", .obj [("columns", .arr []), ("rows", .arr [])])]

/-- Witness for C2 at a concrete input: a jobless body is returned unchanged
with zero poll calls. -/
theorem executeQuery_sync_async_witness :
    executeQuery 123 (.ok bodySync) envPending = (.ok bodySync, ⟨0, 0⟩) ∧
    executeAdhocQuery (.ok bodySync) envPending = (.ok bodySync, ⟨0, 0⟩) :=
  (executeQuery_sync_async 123 bodySync envPending).1 (by decide)

/-- Key-set of a single conditional assignment. -/
theorem mem_optEntry_keys (k' k : String) (v : Option JVal) :
    k' ∈ (optEntry k v).map Prod.fst ↔ (k' = k ∧ v.isSome = true) := by
  cases v <;> simp [optEntry]

/-- C7: the key set of the outgoing `updateQuery` body is exactly the set of
keys whose value in the input is not `undefined`; absent fields never appear
(and in particular are never coerced to null or empty defaults). -/
theorem updateQuery_request_keys (q : UpdateQueryRequest) (k : String) :
    k ∈ (updateQueryRequestData q).map Prod.fst ↔
      ((k = "name" ∧ q.name.isSome = true) ∨
       (k = "data_source_id" ∧ q.data_source_id.isSome = true) ∨
       (k = "query" ∧ q.query.isSome = true) ∨
       (k = "description" ∧ q.description.isSome = true) ∨
       (k = "options" ∧ q.options.isSome = true) ∨
       (k = "schedule" ∧ q.schedule.isSome = true) ∨
       (k = "tags" ∧ q.tags.isSome = true) ∨
       (k = "is_archived" ∧ q.is_archived.isSome = true) ∨
       (k = "is_draft" ∧ q.is_draft.isSome = true)) := by
  simp only [updateQueryRequestData, List.map_append, List.mem_append, mem_optEntry_keys,
    Option.isSome_map']
  simp only [or_assoc]

/-- C8: the guard `if (extraHeaders['Authorization'] ||
extraHeaders['authorization'])` only deletes the caller-supplied entries when
at least one of them is truthy.  An extra-headers configuration carrying
`Authorization` with the empty string — producible from the raw
configuration string `Authorization=` via the `key=value` parser — therefore
survives the guard and, being spread after the defaults, overrides the
derived header: the constructed headers map `Authorization` to `""`, not to
`Key <apiKey>`.  This contradicts the claimed (and commented) invariant that
caller-supplied Authorization entries can never override the derived
header. -/
theorem constructHeaders_empty_auth_override :
    parseExtraHeadersKV "Authorization=" = [("Authorization", "")] ∧
    recGet (constructHeaders "test-api-key" [("Authorization", "")]) "Authorization" =
      some "" ∧
    recGet (constructHeaders "test-api-key" [("Authorization", "")]) "Authorization" ≠
      some ("Key " ++ "test-api-key") := by
  refine ⟨by decide, by decide, by decide⟩

/-- C8, contrast: a truthy caller-supplied `Authorization` value is dropped
by the guard, and the derived header survives as the claim describes. -/
theorem constructHeaders_truthy_auth_dropped :
    recGet (constructHeaders "test-api-key" [("Authorization", "evil")]) "Authorization" =
      some ("Key " ++ "test-api-key") := by
  decide

/-- C9, counterexample: `deleteVisualization` resolves with no value
(`undefined`, modelled as `JVal.null`) on HTTP success — not with the
`\x7bsuccess: true\x7d` object the claim ascribes to every archive/delete
operation. -/
theorem deleteVisualization_success_value :
    deleteVisualization 1 .ok = .ok JVal.null ∧
    JVal.null ≠ JVal.obj [("success", JVal.bool true)] :=
  ⟨rfl, fun h => JVal.noConfusion h⟩

/-- C9, amended: `archiveQuery` returns the success object on HTTP success
and fails with an error naming the entity and id (and the cause) otherwise;
`deleteVisualization` alone returns no value on success, and its failure
error names the entity and id. -/
theorem archiveQuery_deleteVisualization_spec (id : Int) (out : DeleteOutcome) :
    (out = .ok →
       archiveQuery id out = .ok (JVal.obj [("success", JVal.bool true)]) ∧
       deleteVisualization id out = .ok JVal.null) ∧
    (∀ m, out = .err m →
       archiveQuery id out =
         .error ("Failed to archive query " ++ toString id ++ ": " ++ m) ∧
       deleteVisualization id out =
         .error ("Failed to delete visualization " ++ toString id)) := by
  constructor
  · rintro rfl
    exact ⟨rfl, rfl⟩
  · rintro m rfl
    exact ⟨rfl, rfl⟩

/-- Witness for the amended C9 at a concrete input. -/
theorem archiveQuery_deleteVisualization_spec_witness :
    archiveQuery 2 .ok = .ok (JVal.obj [("success", JVal.bool true)]) ∧
    deleteVisualization 2 .ok = .ok JVal.null :=
  (archiveQuery_deleteVisualization_spec 2 .ok).1 rfl

/-- C10: every failure of `executeQuery` — transport error on the initial
POST, poll-loop transport failure, status-4 execution failure, or polling
timeout — reaches the caller with a message under the
`Failed to execute query <queryId>: ` prefix; in particular the poll loop's
own errors are wrapped, never thrown to the public caller unwrapped. -/
theorem executeQuery_error_wrapped (queryId : Int) (post : HttpOutcome) (env : PollEnv)
    (m : String) (s : PollStats)
    (h : executeQuery queryId post env = (.err m, s)) :
    ∃ rest, m = "Failed to execute query " ++ toString queryId ++ ": " ++ rest := by
  cases post with
  | ok body =>
      by_cases hj : (body.get "job").truthy = true
      · rw [show executeQuery queryId (.ok body) env =
              (if (body.get "job").truthy then _ else _) from rfl, if_pos hj] at h
        rcases hpl : pollQueryResults ((body.get "job").get "id").jsString 60000 1000 env
          with ⟨pr, ps⟩
        rw [hpl] at h
        cases pr with
        | ok v => simp at h
        | err m0 =>
            simp only [Prod.mk.injEq, PollResult.err.injEq] at h
            exact ⟨m0, h.1.symm⟩
      · rw [show executeQuery queryId (.ok body) env =
              (if (body.get "job").truthy then _ else _) from rfl,
            if_neg hj] at h
        cases h
  | axiosHttp st d em =>
      injection h with h1 h2
      injection h1 with h3
      exact ⟨"Redash API error (" ++ toString st ++ "): " ++ extractErrMsg d, h3.symm⟩
  | axiosNoResponse em =>
      injection h with h1 h2
      injection h1 with h3
      exact ⟨"No response received from Redash API: " ++ em, h3.symm⟩
  | axiosPlain em =>
      injection h with h1 h2
      injection h1 with h3
      exact ⟨em, h3.symm⟩
  | errorThrown em =>
      injection h with h1 h2
      injection h1 with h3
      exact ⟨em, h3.symm⟩
  | nonErrorThrown d =>
      injection h with h1 h2
      injection h1 with h3
      exact ⟨d, h3.symm⟩

/-- Witness for C10 at a concrete input: a plain axios error on the initial
POST reaches the caller with the wrapped message. -/
theorem executeQuery_error_wrapped_witness :
    ∃ rest, "Failed to execute query " ++ toString (7 : Int) ++ ": " ++ "boom" =
      "Failed to execute query " ++ toString (7 : Int) ++ ": " ++ rest :=
  executeQuery_error_wrapped 7 (.axiosPlain "boom") envPending
    ("Failed to execute query " ++ toString (7 : Int) ++ ": " ++ "boom") ⟨0, 0⟩ rfl

end RedashMCP
